import Mathlib

/- Verification of the ARCADE conversion core in
   src/cell_abm_pipeline/initial_conditions/convert_arcade.py.

   Sample tables are embedded as lists of rows; the pandas DataFrame columns
   x, y, z hold reals (embedded as rationals) and id holds integers.  A table
   may or may not carry a region column; the flag hasRegion records the
   presence of that column, and the region field of a row is meaningful only
   when the flag is set. -/

/-- One row of a samples DataFrame: one voxel observation of one cell. -/
structure Row where
  id : ℤ
  x : ℚ
  y : ℚ
  z : ℚ
  region : String
deriving DecidableEq

/-- A samples DataFrame: its row list plus whether a region column is present. -/
structure Table where
  hasRegion : Bool
  rows : List Row
deriving DecidableEq

/-- The per-region statistic mappings (VOLUME_MU, VOLUME_SIGMA,
CRITICAL_VOLUME_MU, CRITICAL_VOLUME_SIGMA, HEIGHT_MU, HEIGHT_SIGMA,
CRITICAL_HEIGHT_MU, CRITICAL_HEIGHT_SIGMA) that convert_arcade.py imports
from the module configuration, passed explicitly.  A Python dict lookup
raises KeyError on a missing key, embedded as an Option-valued lookup. -/
structure Stats where
  volume_mu : String → Option ℚ
  volume_sigma : String → Option ℚ
  critical_volume_mu : String → Option ℚ
  critical_volume_sigma : String → Option ℚ
  height_mu : String → Option ℚ
  height_sigma : String → Option ℚ
  critical_height_mu : String → Option ℚ
  critical_height_sigma : String → Option ℚ

/-- A per-cell reference record: the pandas reference row for one cell id,
squeezed to a dict from column name to scalar. -/
abbrev Reference := String → Option ℚ

/-- Minimum of a column, as pandas Series.min on a nonempty column
(junk value 0 on the empty column, which pandas would make NaN). -/
def listMinD : List ℚ → ℚ
  | [] => 0
  | a :: t => t.foldl min a

/-- Maximum of a column, as pandas Series.max on a nonempty column
(junk value 0 on the empty column, which pandas would make NaN). -/
def listMaxD : List ℚ → ℚ
  | [] => 0
  | a :: t => t.foldl max a

/-- pandas Series.mean: sum divided by length. -/
def listMean (l : List ℚ) : ℚ := l.sum / l.length

/-- Python int() and the numpy float-to-int conversions truncate toward zero:
floor for nonnegative values, ceiling for negative values. -/
def pyInt (q : ℚ) : ℤ := if 0 ≤ q then ⌊q⌋ else ⌈q⌉

/-- numpy astype(int32): truncation toward zero followed by wraparound into
the 32-bit two-complement range. -/
def int32cast (q : ℚ) : ℤ := (pyInt q + 2 ^ 31) % 2 ^ 32 - 2 ^ 31

/-- Modelled from the spec: ProcessSamples.get_step_size is imported by
convert_arcade.py but its source is not part of this repository snapshot.
Per the spec it returns the smallest positive coordinate delta observed on
the axis (the sampling resolution), and a degenerate axis with no positive
delta falls back to one resolution unit so that no division by zero occurs. -/
def get_step_size (l : List ℚ) : ℚ :=
  match (l.flatMap (fun a => l.map (fun b => b - a))).filter (fun d => decide (0 < d)) with
  | [] => 1
  | d :: ds => ds.foldl min d

/-- One axis of ConvertARCADE.calculate_sample_transform, line 182:
offset = -(min / step) + margin + 1. -/
def axis_offset (vals : List ℚ) (margin : ℤ) : ℚ :=
  -(listMinD vals / get_step_size vals) + margin + 1

/-- One axis of ConvertARCADE.calculate_sample_transform, line 185:
bound = (max - min) / step + 2 * margin + 3. -/
def axis_bound (vals : List ℚ) (margin : ℤ) : ℚ :=
  (listMaxD vals - listMinD vals) / get_step_size vals + 2 * margin + 3

/-- ConvertARCADE.calculate_sample_transform (lines 172-189): per-axis steps,
offsets and bounds, each axis computed independently. -/
def calculate_sample_transform (rows : List Row) (margins : ℤ × ℤ × ℤ) :
    (ℚ × ℚ × ℚ) × (ℚ × ℚ × ℚ) × (ℚ × ℚ × ℚ) :=
  let xs := rows.map Row.x
  let ys := rows.map Row.y
  let zs := rows.map Row.z
  ((get_step_size xs, get_step_size ys, get_step_size zs),
   (axis_offset xs margins.1, axis_offset ys margins.2.1, axis_offset zs margins.2.2),
   (axis_bound xs margins.1, axis_bound ys margins.2.1, axis_bound zs margins.2.2))

/-- One coordinate of ConvertARCADE.transform_sample_voxels, line 195:
df[i].divide(steps[i]).astype(int32) + offsets[i].  The resulting pandas
column holds floats, since the offset is in general fractional. -/
def transform_coord (step offset raw : ℚ) : ℚ := (int32cast (raw / step) : ℚ) + offset

/-- ConvertARCADE.transform_sample_voxels (lines 191-196). -/
def transform_sample_voxels (rows : List Row) (steps offsets : ℚ × ℚ × ℚ) : List Row :=
  rows.map (fun r =>
    { r with
      x := transform_coord steps.1 offsets.1 r.x
      y := transform_coord steps.2.1 offsets.2.1 r.y
      z := transform_coord steps.2.2 offsets.2.2 r.z })

/-- The distinct region values appearing among the rows of one cell,
as x.region.unique() over the group of that cell. -/
def cellRegions (rows : List Row) (cell_id : ℤ) : List String :=
  ((rows.filter (fun r => decide (r.id = cell_id))).map Row.region).dedup

/-- ConvertARCADE.filter_valid_samples (lines 236-242): with a region column,
keep exactly the rows of cells having more than one distinct region (pandas
groupby-filter keeps the surviving rows in original order); without a region
column, return the table unchanged. -/
def filter_valid_samples (t : Table) : Table :=
  if t.hasRegion then
    { t with rows := t.rows.filter (fun r => decide (1 < (cellRegions t.rows r.id).length)) }
  else t

/-- Lexicographic comparison of character lists by code point, as Python
compares strings. -/
def charListLe : List Char → List Char → Bool
  | [], _ => true
  | _ :: _, [] => false
  | a :: as, b :: bs =>
    if a.toNat < b.toNat then true
    else if b.toNat < a.toNat then false
    else charListLe as bs

/-- Python string comparison: code-point lexicographic order, the order in
which pandas groupby sorts string group keys. -/
def strLe (a b : String) : Bool := charListLe a.data b.data

/-- The group keys of samples.groupby(region): the distinct region values in
ascending order, since pandas groupby sorts its group keys. -/
def regionKeys (rows : List Row) : List String :=
  List.insertionSort (fun a b => strLe a b = true) ((rows.map Row.region).dedup)

/-- The group keys of samples.groupby(id): the distinct cell ids in ascending
order, since pandas groupby sorts its group keys. -/
def sortedIds (rows : List Row) : List ℤ :=
  List.insertionSort (fun a b => a ≤ b) ((rows.map Row.id).dedup)

/-- ConvertARCADE.get_cell_criticals (lines 290-302).  The raw volume is the
reference entry for the volume key when that key is present, else the row
count; the raw height is always max(z) - min(z) of the samples.  Each
statistic-dict subscript raises KeyError on a missing region key, so the
result is none as soon as any lookup misses. -/
def get_cell_criticals (samples : List Row) (reference : Reference) (stats : Stats)
    (region : String) : Option (ℚ × ℚ) :=
  let reference_key := if region = "DEFAULT" then "volume" else "volume." ++ region
  let volume : ℚ := (reference reference_key).getD (samples.length : ℚ)
  let height : ℚ := listMaxD (samples.map Row.z) - listMinD (samples.map Row.z)
  (stats.volume_mu region).bind fun vmu =>
  (stats.volume_sigma region).bind fun vsig =>
  (stats.critical_volume_sigma region).bind fun cvsig =>
  (stats.critical_volume_mu region).bind fun cvmu =>
  (stats.height_mu region).bind fun hmu =>
  (stats.height_sigma region).bind fun hsig =>
  (stats.critical_height_sigma region).bind fun chsig =>
  (stats.critical_height_mu region).bind fun chmu =>
  some (((volume - vmu) / vsig) * cvsig + cvmu, ((height - hmu) / hsig) * chsig + chmu)

/-- The raw volume measurement used by get_cell_criticals, line 293. -/
def rawVolume (samples : List Row) (reference : Reference) (region : String) : ℚ :=
  (reference (if region = "DEFAULT" then "volume" else "volume." ++ region)).getD
    (samples.length : ℚ)

/-- The raw height measurement used by get_cell_criticals, line 294. -/
def rawHeight (samples : List Row) : ℚ :=
  listMaxD (samples.map Row.z) - listMinD (samples.map Row.z)

/-- The threshold fractions hard-coded in ConvertARCADE.get_cell_phase, line 306. -/
def fractions : List ℚ := [0.25, 1, 1.124, 1.726, 1.969]

/-- The states list of ConvertARCADE.get_cell_phase, lines 308-314. -/
def states : List String :=
  ["APOPTOTIC", "APOPTOTIC", "PROLIFERATIVE", "PROLIFERATIVE", "PROLIFERATIVE"]

/-- The phases list of ConvertARCADE.get_cell_phase, line 315. -/
def phases : List String := ["LATE", "EARLY", "G1", "S", "G2"]

/-- ConvertARCADE.get_cell_phase (lines 304-321): take the index of the first
threshold strictly above the volume, Python index -1 (the last entry) when no
threshold exceeds it, and return the state together with state_phase. -/
def get_cell_phase (volume critical_volume : ℚ) : String × String :=
  let thresholds := fractions.map (fun fraction => fraction * critical_volume)
  let index := (thresholds.findIdx? (fun thresh => decide (volume < thresh))).getD
    (states.length - 1)
  let state := states.getD index ""
  (state, state ++ "_" ++ phases.getD index "")

/-- One per-region sub-record of a cell record. -/
structure RegionRecord where
  region : String
  voxels : ℕ
  criticals : List ℚ
deriving DecidableEq

/-- One cell record of the .CELLS output. -/
structure CellRecord where
  id : ℤ
  parent : ℤ
  pop : ℤ
  age : ℤ
  divisions : ℤ
  state : String
  phase : String
  voxels : ℕ
  criticals : List ℚ
  regions : Option (List RegionRecord)
deriving DecidableEq

/-- One region bucket of a location record. -/
structure LocationEntry where
  region : String
  voxels : List (List ℤ)
deriving DecidableEq

/-- One location record of the .LOCATIONS output. -/
structure LocationRecord where
  id : ℤ
  center : List ℤ
  location : List LocationEntry
deriving DecidableEq

/-- The loop body of ConvertARCADE.get_cell_regions over the region group
keys; a missing statistic aborts the whole list. -/
def get_cell_regions_from (samples : List Row) (reference : Reference) (stats : Stats) :
    List String → Option (List RegionRecord)
  | [] => some []
  | region :: rest =>
    let group := samples.filter (fun r => decide (r.region = region))
    (get_cell_criticals group reference stats region).bind fun c =>
    (get_cell_regions_from samples reference stats rest).bind fun tail =>
    some ({ region := region, voxels := group.length, criticals := [c.1, c.2] } :: tail)

/-- ConvertARCADE.get_cell_regions (lines 323-334): one sub-record per region
group, in pandas groupby key order. -/
def get_cell_regions (samples : List Row) (reference : Reference) (stats : Stats) :
    Option (List RegionRecord) :=
  get_cell_regions_from samples reference stats (regionKeys samples)

/-- ConvertARCADE.convert_to_cell (lines 244-267). -/
def convert_to_cell (cell_id : ℤ) (t : Table) (reference : Reference) (stats : Stats) :
    Option CellRecord :=
  let volume := t.rows.length
  (get_cell_criticals t.rows reference stats "DEFAULT").bind fun c =>
  let sp := get_cell_phase (volume : ℚ) c.1
  let cell : CellRecord :=
    { id := cell_id, parent := 0, pop := 1, age := 0, divisions := 0,
      state := sp.1, phase := sp.2, voxels := volume, criticals := [c.1, c.2],
      regions := none }
  if t.hasRegion then
    (get_cell_regions t.rows reference stats).bind fun regs =>
    some { cell with regions := some regs }
  else
    some cell

/-- ConvertARCADE.make_location_center (lines 345-348): int(mean) per axis. -/
def make_location_center (samples : List Row) : List ℤ :=
  [pyInt (listMean (samples.map Row.x)),
   pyInt (listMean (samples.map Row.y)),
   pyInt (listMean (samples.map Row.z))]

/-- ConvertARCADE.make_location_voxels (lines 350-354). -/
def make_location_voxels (samples : List Row) : List (List ℤ) :=
  samples.map (fun r => [pyInt r.x, pyInt r.y, pyInt r.z])

/-- ConvertARCADE.convert_to_location (lines 269-288). -/
def convert_to_location (cell_id : ℤ) (t : Table) : LocationRecord :=
  let location :=
    if t.hasRegion = false then
      [({ region := "UNDEFINED", voxels := make_location_voxels t.rows } : LocationEntry)]
    else
      (regionKeys t.rows).map (fun region =>
        ({ region := region,
           voxels := make_location_voxels
             (t.rows.filter (fun r => decide (r.region = region))) } : LocationEntry))
  { id := cell_id, center := make_location_center t.rows, location := location }

/-- The rows of one cell of the grouped table (samples.groupby by id). -/
def groupRows (rows : List Row) (cell_id : ℤ) : List Row :=
  rows.filter (fun r => decide (r.id = cell_id))

/-- The cell half of the conversion loop of ConvertARCADE.convert_arcade
(lines 148-158): over the enumerated sorted group keys, the emitted cell ids
are the renumbered i + 1; a KeyError anywhere aborts the conversion. -/
def convert_cells_from (hasRegion : Bool) (rows : List Row)
    (refFor : ℤ → Reference) (stats : Stats) : List (ℕ × ℤ) → Option (List CellRecord)
  | [] => some []
  | (i, sample_id) :: rest =>
    (convert_to_cell ((i : ℤ) + 1) ⟨hasRegion, groupRows rows sample_id⟩
        (refFor sample_id) stats).bind fun cell =>
    (convert_cells_from hasRegion rows refFor stats rest).bind fun tail =>
    some (cell :: tail)

/-- The location half of the same loop; convert_to_location is total. -/
def convert_locations_from (hasRegion : Bool) (rows : List Row)
    (pairs : List (ℕ × ℤ)) : List LocationRecord :=
  pairs.map (fun p => convert_to_location ((p.1 : ℤ) + 1) ⟨hasRegion, groupRows rows p.2⟩)

/-- The record-building core of ConvertARCADE.convert_arcade: filter the
samples, group by cell id (pandas groupby iterates keys in ascending order),
and emit one cell record and one location record per group, with ids
renumbered densely from 1; a KeyError from a statistics lookup aborts the
whole conversion with no output written. -/
def convert_arcade_records (t : Table) (refFor : ℤ → Reference) (stats : Stats) :
    Option (List CellRecord × List LocationRecord) :=
  let s := filter_valid_samples t
  let pairs := (sortedIds s.rows).enum
  (convert_cells_from s.hasRegion s.rows refFor stats pairs).bind fun cells =>
  some (cells, convert_locations_from s.hasRegion s.rows pairs)

/- Helper lemmas about column minima and the step size. -/

lemma foldl_min_le_init (l : List ℚ) (a : ℚ) : l.foldl min a ≤ a := by
  induction l generalizing a with
  | nil => exact le_refl a
  | cons b t ih => exact le_trans (ih (min a b)) (min_le_left a b)

lemma foldl_min_le_mem (l : List ℚ) (a : ℚ) (x : ℚ) (hx : x ∈ l) : l.foldl min a ≤ x := by
  induction l generalizing a with
  | nil => cases hx
  | cons b t ih =>
    rcases List.mem_cons.mp hx with h | h
    · subst h
      exact le_trans (foldl_min_le_init t (min a x)) (min_le_right a x)
    · exact ih (min a b) h

lemma foldl_min_choice (l : List ℚ) (a : ℚ) : l.foldl min a = a ∨ l.foldl min a ∈ l := by
  induction l generalizing a with
  | nil => exact Or.inl rfl
  | cons b t ih =>
    rcases ih (min a b) with h | h
    · rcases min_choice a b with h2 | h2
      · exact Or.inl (by rw [List.foldl_cons, h, h2])
      · exact Or.inr (by rw [List.foldl_cons, h, h2]; exact List.mem_cons_self b t)
    · exact Or.inr (List.mem_cons_of_mem b h)

lemma listMinD_le (l : List ℚ) (x : ℚ) (hx : x ∈ l) : listMinD l ≤ x := by
  cases l with
  | nil => cases hx
  | cons a t =>
    rcases List.mem_cons.mp hx with h | h
    · subst h; exact foldl_min_le_init t x
    · exact foldl_min_le_mem t a x h

lemma listMinD_mem (l : List ℚ) (h : l ≠ []) : listMinD l ∈ l := by
  cases l with
  | nil => exact absurd rfl h
  | cons a t =>
    show t.foldl min a ∈ a :: t
    rcases foldl_min_choice t a with h1 | h1
    · rw [h1]; exact List.mem_cons_self a t
    · exact List.mem_cons_of_mem a h1

lemma listMinD_eq (l : List ℚ) (c : ℚ) (hc : c ∈ l) (hlb : ∀ x ∈ l, c ≤ x) :
    listMinD l = c :=
  le_antisymm (listMinD_le l c hc) (hlb _ (listMinD_mem l (List.ne_nil_of_mem hc)))

lemma get_step_size_pos (l : List ℚ) : 0 < get_step_size l := by
  unfold get_step_size
  split
  · norm_num
  · next d ds heq =>
    have hpos : ∀ x ∈ d :: ds, 0 < x := by
      intro x hx
      rw [← heq] at hx
      exact of_decide_eq_true (List.mem_filter.mp hx).2
    rcases foldl_min_choice ds d with h1 | h1
    · rw [h1]; exact hpos d (List.mem_cons_self d ds)
    · exact hpos _ (List.mem_cons_of_mem d h1)

lemma pyInt_eq_floor (q : ℚ) (h : 0 ≤ q) : pyInt q = ⌊q⌋ := if_pos h

lemma int32cast_eq_pyInt (q : ℚ) (h1 : -2 ^ 31 ≤ pyInt q) (h2 : pyInt q < 2 ^ 31) :
    int32cast q = pyInt q := by
  unfold int32cast
  have h3 : (0 : ℤ) ≤ pyInt q + 2 ^ 31 := by linarith
  have h4 : pyInt q + 2 ^ 31 < 2 ^ 32 := by norm_num at h2 ⊢; linarith
  rw [Int.emod_eq_of_lt h3 h4]
  ring

/- The code-point lexicographic order used for region group keys is total and
transitive, so insertion sort produces a sorted key list. -/

lemma charListLe_total : ∀ as bs : List Char, charListLe as bs = true ∨ charListLe bs as = true := by
  intro as
  induction as with
  | nil => intro bs; exact Or.inl rfl
  | cons a as ih =>
    intro bs
    cases bs with
    | nil => exact Or.inr rfl
    | cons b bs =>
      rcases Nat.lt_trichotomy a.toNat b.toNat with h | h | h
      · exact Or.inl (by simp [charListLe, h])
      · rcases ih bs with h2 | h2
        · exact Or.inl (by simp [charListLe, h, h2])
        · exact Or.inr (by simp [charListLe, h, h2])
      · exact Or.inr (by simp [charListLe, h])

lemma charListLe_trans :
    ∀ as bs cs : List Char, charListLe as bs = true → charListLe bs cs = true →
      charListLe as cs = true := by
  intro as
  induction as with
  | nil => intro bs cs _ _; rfl
  | cons a as ih =>
    intro bs cs h1 h2
    cases bs with
    | nil => simp [charListLe] at h1
    | cons b bs =>
      cases cs with
      | nil => simp [charListLe] at h2
      | cons c cs =>
        rcases Nat.lt_trichotomy a.toNat b.toNat with hab | hab | hab <;>
          rcases Nat.lt_trichotomy b.toNat c.toNat with hbc | hbc | hbc
        · simp [charListLe, Nat.lt_trans hab hbc]
        · simp [charListLe, hbc ▸ hab]
        · simp [charListLe, hbc, Nat.lt_asymm hbc] at h2
        · simp [charListLe, hab ▸ hbc]
        · have hac : a.toNat = c.toNat := hab.trans hbc
          simp [charListLe, hab, Nat.lt_irrefl] at h1
          simp [charListLe, hbc, Nat.lt_irrefl] at h2
          simp [charListLe, hac, Nat.lt_irrefl]
          exact ih bs cs h1 h2
        · simp [charListLe, hbc, Nat.lt_asymm hbc] at h2
        · simp [charListLe, hab, Nat.lt_asymm hab] at h1
        · simp [charListLe, hab, Nat.lt_asymm hab] at h1
        · simp [charListLe, hab, Nat.lt_asymm hab] at h1

instance : IsTotal String (fun a b => strLe a b = true) :=
  ⟨fun a b => charListLe_total a.data b.data⟩

instance : IsTrans String (fun a b => strLe a b = true) :=
  ⟨fun a b c => charListLe_trans a.data b.data c.data⟩

lemma mem_regionKeys (rows : List Row) (r : Row) (hr : r ∈ rows) :
    r.region ∈ regionKeys rows := by
  unfold regionKeys
  rw [(List.perm_insertionSort _ _).mem_iff, List.mem_dedup, List.mem_map]
  exact ⟨r, hr, rfl⟩

lemma regionKeys_nodup (rows : List Row) : (regionKeys rows).Nodup := by
  unfold regionKeys
  exact ((List.perm_insertionSort _ _).nodup_iff).mpr (List.nodup_dedup _)

lemma regionKeys_sorted (rows : List Row) :
    (regionKeys rows).Pairwise (fun a b => strLe a b = true) :=
  List.sorted_insertionSort _ _

/- A list of rows is partitioned by filtering on each of its distinct region
values once. -/

lemma sum_map_ite_zero (ks : List String) (a : String) (ha : a ∉ ks) :
    (ks.map (fun k => if a = k then (1 : ℕ) else 0)).sum = 0 := by
  induction ks with
  | nil => rfl
  | cons k ks ih =>
    have hne : a ≠ k := fun h => ha (h ▸ List.mem_cons_self k ks)
    simp [hne, ih (fun h => ha (List.mem_cons_of_mem k h))]

lemma sum_map_ite_one (ks : List String) (a : String) (hnd : ks.Nodup) (ha : a ∈ ks) :
    (ks.map (fun k => if a = k then (1 : ℕ) else 0)).sum = 1 := by
  induction ks with
  | nil => cases ha
  | cons k ks ih =>
    rcases List.mem_cons.mp ha with h | h
    · subst h
      simp [sum_map_ite_zero ks a (List.nodup_cons.mp hnd).1]
    · have hne : a ≠ k := fun he => (List.nodup_cons.mp hnd).1 (he ▸ h)
      simp [hne, ih (List.nodup_cons.mp hnd).2 h]

lemma sum_filter_length (ks : List String) (rows : List Row)
    (hnd : ks.Nodup) (hall : ∀ r ∈ rows, r.region ∈ ks) :
    (ks.map (fun k => (rows.filter (fun r => decide (r.region = k))).length)).sum
      = rows.length := by
  induction rows with
  | nil => simp
  | cons r rest ih =>
    have hstep : ∀ k : String,
        ((r :: rest).filter (fun r2 => decide (r2.region = k))).length
          = (if r.region = k then 1 else 0)
            + (rest.filter (fun r2 => decide (r2.region = k))).length := by
      intro k
      by_cases h : r.region = k
      · simp [List.filter_cons, h]; omega
      · simp [List.filter_cons, h]
    calc (ks.map (fun k => ((r :: rest).filter (fun r2 => decide (r2.region = k))).length)).sum
        = (ks.map (fun k => (if r.region = k then 1 else 0)
            + (rest.filter (fun r2 => decide (r2.region = k))).length)).sum := by
          exact congrArg List.sum (List.map_congr_left (fun k _ => hstep k))
      _ = (ks.map (fun k => if r.region = k then (1 : ℕ) else 0)).sum
            + (ks.map (fun k => (rest.filter (fun r2 => decide (r2.region = k))).length)).sum := by
          rw [← List.sum_map_add]
      _ = (r :: rest).length := by
          rw [sum_map_ite_one ks r.region hnd (hall r (List.mem_cons_self r rest)),
            ih (fun r2 h2 => hall r2 (List.mem_cons_of_mem r h2))]
          simp [Nat.add_comm]

/- Lemmas relating the conversion loop to its per-cell pieces. -/

lemma convert_cells_from_length (hR : Bool) (rows : List Row) (refFor : ℤ → Reference)
    (stats : Stats) :
    ∀ (ps : List (ℕ × ℤ)) (cs : List CellRecord),
      convert_cells_from hR rows refFor stats ps = some cs → cs.length = ps.length := by
  intro ps
  induction ps with
  | nil =>
    intro cs h
    simp [convert_cells_from] at h
    simp [← h]
  | cons p rest ih =>
    intro cs h
    obtain ⟨i, sid⟩ := p
    unfold convert_cells_from at h
    rcases Option.bind_eq_some.mp h with ⟨cell, hcell, h2⟩
    rcases Option.bind_eq_some.mp h2 with ⟨tail, htail, h3⟩
    rcases Option.some.inj h3 with h4
    simp [← h4, ih tail htail]

lemma convert_cells_from_get (hR : Bool) (rows : List Row) (refFor : ℤ → Reference)
    (stats : Stats) :
    ∀ (ps : List (ℕ × ℤ)) (cs : List CellRecord),
      convert_cells_from hR rows refFor stats ps = some cs →
      ∀ (j : ℕ) (hj : j < ps.length) (hj2 : j < cs.length),
        convert_to_cell (((ps.get ⟨j, hj⟩).1 : ℤ) + 1)
            ⟨hR, groupRows rows (ps.get ⟨j, hj⟩).2⟩ (refFor (ps.get ⟨j, hj⟩).2) stats
          = some (cs.get ⟨j, hj2⟩) := by
  intro ps
  induction ps with
  | nil => intro cs h j hj; cases (Nat.not_lt_zero j) hj
  | cons p rest ih =>
    intro cs h j hj hj2
    obtain ⟨i, sid⟩ := p
    unfold convert_cells_from at h
    rcases Option.bind_eq_some.mp h with ⟨cell, hcell, h2⟩
    rcases Option.bind_eq_some.mp h2 with ⟨tail, htail, h3⟩
    rcases Option.some.inj h3 with h4
    subst h4
    cases j with
    | zero => exact hcell
    | succ j =>
      exact ih tail htail j (Nat.lt_of_succ_lt_succ hj) (Nat.lt_of_succ_lt_succ hj2)

lemma convert_to_cell_fields (cell_id : ℤ) (t : Table) (reference : Reference)
    (stats : Stats) (c : CellRecord)
    (h : convert_to_cell cell_id t reference stats = some c) :
    c.id = cell_id ∧ c.voxels = t.rows.length := by
  unfold convert_to_cell at h
  rcases Option.bind_eq_some.mp h with ⟨cr, hcr, h2⟩
  cases ht : t.hasRegion
  · rw [ht] at h2
    simp only [Bool.false_eq_true, if_false] at h2
    rcases Option.some.inj h2 with h3
    simp [← h3]
  · rw [ht] at h2
    simp only [if_true] at h2
    rcases Option.bind_eq_some.mp h2 with ⟨regs, hregs, h3⟩
    rcases Option.some.inj h3 with h4
    simp [← h4]

lemma convert_to_location_id (cell_id : ℤ) (t : Table) :
    (convert_to_location cell_id t).id = cell_id := rfl

lemma convert_to_location_total_voxels (cell_id : ℤ) (t : Table) :
    ((convert_to_location cell_id t).location.map (fun e => e.voxels.length)).sum
      = t.rows.length := by
  unfold convert_to_location
  cases ht : t.hasRegion
  · simp [ht, make_location_voxels]
  · simp only [ht, Bool.true_eq_false, if_false, List.map_map]
    have hcomp :
        ((fun e : LocationEntry => e.voxels.length) ∘ fun region =>
          ({ region := region,
             voxels := make_location_voxels
               (t.rows.filter (fun r => decide (r.region = region))) } : LocationEntry))
          = fun region => (t.rows.filter (fun r => decide (r.region = region))).length := by
      funext region
      simp [make_location_voxels]
    rw [hcomp]
    exact sum_filter_length (regionKeys t.rows) t.rows (regionKeys_nodup t.rows)
      (fun r hr => mem_regionKeys t.rows r hr)

lemma get_cell_regions_from_map (samples : List Row) (reference : Reference) (stats : Stats) :
    ∀ (ks : List String) (regs : List RegionRecord),
      get_cell_regions_from samples reference stats ks = some regs →
      regs.map (fun rr => rr.region) = ks := by
  intro ks
  induction ks with
  | nil =>
    intro regs h
    simp [get_cell_regions_from] at h
    simp [← h]
  | cons k rest ih =>
    intro regs h
    unfold get_cell_regions_from at h
    rcases Option.bind_eq_some.mp h with ⟨c, hc, h2⟩
    rcases Option.bind_eq_some.mp h2 with ⟨tail, htail, h3⟩
    rcases Option.some.inj h3 with h4
    simp [← h4, ih tail htail]

/-- C1: with the default thresholds of get_cell_phase and critical_volume
1000, volume 0 and volume 249 classify as APOPTOTIC_LATE, volume 250 as
APOPTOTIC_EARLY, and volume 2000 as PROLIFERATIVE_G2; the returned state is
the text before the first underscore and the phase is the full label. -/
theorem claim_c1 :
    get_cell_phase 0 1000 = ("APOPTOTIC", "APOPTOTIC_LATE")
    ∧ get_cell_phase 249 1000 = ("APOPTOTIC", "APOPTOTIC_LATE")
    ∧ get_cell_phase 250 1000 = ("APOPTOTIC", "APOPTOTIC_EARLY")
    ∧ get_cell_phase 2000 1000 = ("PROLIFERATIVE", "PROLIFERATIVE_G2") := by
  refine ⟨?_, ?_, ?_, ?_⟩ <;>
  · norm_num [get_cell_phase, fractions, states, phases, List.findIdx?_cons, List.findIdx?_nil]
    decide

/-- C5 counterexample: the default named fractional thresholds of
get_cell_phase are not LATE 0.25, EARLY 0.90, G1 1.124, S 1.726, G2 1.969:
the APOPTOTIC_EARLY fraction in the source is 1, not 0.90. -/
theorem claim_c5_counterexample :
    (List.zipWith (fun s p => s ++ "_" ++ p) states phases).zip fractions
      ≠ [("APOPTOTIC_LATE", (0.25 : ℚ)), ("APOPTOTIC_EARLY", 0.90), ("PROLIFERATIVE_G1", 1.124),
         ("PROLIFERATIVE_S", 1.726), ("PROLIFERATIVE_G2", 1.969)] := by
  intro h
  have h2 := congrArg (fun l => (l.getD 1 ("", 0)).2) h
  norm_num [states, phases, fractions] at h2

/-- C5 amended: the default fractional-threshold mapping of get_cell_phase
is exactly APOPTOTIC_LATE 0.25, APOPTOTIC_EARLY 1, PROLIFERATIVE_G1 1.124,
PROLIFERATIVE_S 1.726, PROLIFERATIVE_G2 1.969; the fraction used for the
APOPTOTIC_EARLY breakpoint equals 1. -/
theorem claim_c5_amended :
    (List.zipWith (fun s p => s ++ "_" ++ p) states phases).zip fractions
      = [("APOPTOTIC_LATE", (0.25 : ℚ)), ("APOPTOTIC_EARLY", 1), ("PROLIFERATIVE_G1", 1.124),
         ("PROLIFERATIVE_S", 1.726), ("PROLIFERATIVE_G2", 1.969)] := by
  norm_num [states, phases, fractions]
  decide

/-- C6: get_cell_criticals returns no value (the Python code raises KeyError)
whenever the region it is given is absent from any of the eight
population/critical statistic mappings for volume or height; it never
substitutes a default for a missing region key. -/
theorem claim_c6 (samples : List Row) (reference : Reference) (stats : Stats) (region : String)
    (h : stats.volume_mu region = none ∨ stats.volume_sigma region = none
      ∨ stats.critical_volume_mu region = none ∨ stats.critical_volume_sigma region = none
      ∨ stats.height_mu region = none ∨ stats.height_sigma region = none
      ∨ stats.critical_height_mu region = none ∨ stats.critical_height_sigma region = none) :
    get_cell_criticals samples reference stats region = none := by
  rcases h with h | h | h | h | h | h | h | h <;>
    simp [get_cell_criticals, h, Option.bind_eq_none]

/-- C6 witness: a statistics configuration whose volume mean mapping has no
entry for region NUCLEUS makes get_cell_criticals fail on that region. -/
theorem claim_c6_witness :
    get_cell_criticals [] (fun _ => none)
      ⟨fun _ => none, fun _ => some 1, fun _ => some 0, fun _ => some 1,
       fun _ => some 0, fun _ => some 1, fun _ => some 0, fun _ => some 1⟩ "NUCLEUS" = none :=
  claim_c6 [] _ _ "NUCLEUS" (Or.inl rfl)

/-- C2: the critical volume returned by get_cell_criticals equals
((raw - population_mean[region]) / population_std[region]) *
critical_std[region] + critical_mean[region], where raw is the
reference-supplied volume scalar for the region when its key is present and
otherwise the voxel count of the samples group. -/
theorem claim_c2 (samples : List Row) (reference : Reference) (stats : Stats) (region : String)
    (vmu vsig cvmu cvsig cv ch : ℚ)
    (h1 : stats.volume_mu region = some vmu) (h2 : stats.volume_sigma region = some vsig)
    (h3 : stats.critical_volume_mu region = some cvmu)
    (h4 : stats.critical_volume_sigma region = some cvsig)
    (h : get_cell_criticals samples reference stats region = some (cv, ch)) :
    cv = ((rawVolume samples reference region - vmu) / vsig) * cvsig + cvmu := by
  simp only [get_cell_criticals] at h
  rcases Option.bind_eq_some.mp h with ⟨a1, e1, h⟩
  rcases Option.bind_eq_some.mp h with ⟨a2, e2, h⟩
  rcases Option.bind_eq_some.mp h with ⟨a3, e3, h⟩
  rcases Option.bind_eq_some.mp h with ⟨a4, e4, h⟩
  rcases Option.bind_eq_some.mp h with ⟨a5, e5, h⟩
  rcases Option.bind_eq_some.mp h with ⟨a6, e6, h⟩
  rcases Option.bind_eq_some.mp h with ⟨a7, e7, h⟩
  rcases Option.bind_eq_some.mp h with ⟨a8, e8, h⟩
  have ha1 : a1 = vmu := Option.some.inj (e1.symm.trans h1)
  have ha2 : a2 = vsig := Option.some.inj (e2.symm.trans h2)
  have ha3 : a3 = cvsig := Option.some.inj (e3.symm.trans h4)
  have ha4 : a4 = cvmu := Option.some.inj (e4.symm.trans h3)
  have hp := Option.some.inj h
  have hcv := congrArg Prod.fst hp
  simp only at hcv
  rw [← hcv, ha1, ha2, ha3, ha4]
  simp [rawVolume]

/-- C2 witness: with population mean 100, population std 10, critical mean
200, critical std 30 and a reference-supplied raw volume of 1000, the
critical volume computed by get_cell_criticals is exactly 2900. -/
theorem claim_c2_witness :
    (2900 : ℚ)
      = ((rawVolume [] (fun k => if k = "volume" then some 1000 else none) "DEFAULT" - 100) / 10)
          * 30 + 200 := by
  have h := claim_c2 [] (fun k => if k = "volume" then some 1000 else none)
    ⟨fun _ => some 100, fun _ => some 10, fun _ => some 200, fun _ => some 30,
     fun _ => some 0, fun _ => some 1, fun _ => some 0, fun _ => some 1⟩ "DEFAULT"
    100 10 200 30 2900 0 rfl rfl rfl rfl ?_
  · exact h
  · norm_num [get_cell_criticals, listMaxD, listMinD]

/-- C4: contrary to the spec, get_cell_criticals never reads the
reference-supplied height value; evaluated on a two-voxel cell with z values
0 and 5 and a reference mapping carrying height 999, with identity statistics
the returned critical height is the sample-derived 5, not the
reference-derived 999. -/
theorem claim_c4_code_eval :
    (fun k => if k = "height" then some (999 : ℚ) else none) "height" = some 999
    ∧ get_cell_criticals [⟨1, 0, 0, 0, ""⟩, ⟨1, 0, 0, 5, ""⟩]
        (fun k => if k = "height" then some (999 : ℚ) else none)
        ⟨fun _ => some 0, fun _ => some 1, fun _ => some 0, fun _ => some 1,
         fun _ => some 0, fun _ => some 1, fun _ => some 0, fun _ => some 1⟩ "DEFAULT"
      = some (2, 5)
    ∧ (5 : ℚ) ≠ 999 := by
  refine ⟨rfl, ?_, by norm_num⟩
  have hne : ("volume" : String) ≠ "height" := by decide
  norm_num [get_cell_criticals, listMaxD, listMinD, hne]

/-- C7: for a table carrying a region column, filter_valid_samples returns
exactly the rows, in original order, of those cells whose set of distinct
region values has cardinality at least two, dropping every row of cells with
at most one region; a table without a region column passes unchanged. -/
theorem claim_c7 (t : Table) :
    (t.hasRegion = true →
      (filter_valid_samples t).rows
        = t.rows.filter (fun r =>
            decide (2 ≤ ((t.rows.filter (fun r2 => decide (r2.id = r.id))).map
              Row.region).toFinset.card)))
    ∧ (t.hasRegion = false → filter_valid_samples t = t) := by
  constructor
  · intro ht
    simp only [filter_valid_samples, ht, if_true]
    apply List.filter_congr
    intro r hr
    simp only [decide_eq_decide]
    unfold cellRegions
    rw [List.card_toFinset]
    omega
  · intro ht
    simp [filter_valid_samples, ht]

/-- C7 witness: of two region-tagged cells where cell 1 has three distinct
regions and cell 2 has one, exactly the rows of cell 1 survive, in order. -/
theorem claim_c7_witness :
    (filter_valid_samples
        ⟨true, [⟨1, 0, 0, 0, "A"⟩, ⟨1, 0, 0, 0, "B"⟩, ⟨1, 0, 0, 0, "C"⟩, ⟨2, 0, 0, 0, "A"⟩]⟩).rows
      = [⟨1, 0, 0, 0, "A"⟩, ⟨1, 0, 0, 0, "B"⟩, ⟨1, 0, 0, 0, "C"⟩] :=
  ((claim_c7 _).1 rfl).trans (by decide)

/-- C8 counterexample: on a cell group whose x mean is -1/2, the center
computed by convert_to_location is the truncation toward zero (0), not the
floor (-1) that the claim specifies. -/
theorem claim_c8_counterexample :
    (convert_to_location 1 ⟨false, [⟨1, -1, 0, 0, ""⟩, ⟨1, 0, 0, 0, ""⟩]⟩).center
      ≠ [⌊listMean ([(⟨1, -1, 0, 0, ""⟩ : Row), ⟨1, 0, 0, 0, ""⟩].map Row.x)⌋,
         ⌊listMean ([(⟨1, -1, 0, 0, ""⟩ : Row), ⟨1, 0, 0, 0, ""⟩].map Row.y)⌋,
         ⌊listMean ([(⟨1, -1, 0, 0, ""⟩ : Row), ⟨1, 0, 0, 0, ""⟩].map Row.z)⌋] := by
  have hmean : listMean [(-1 : ℚ), 0] = -(1 / 2) := by norm_num [listMean]
  have hceil : (⌈-(1 / 2 : ℚ)⌉ : ℤ) = 0 := by rw [Int.ceil_neg]; norm_num
  have hpy : pyInt (-(1 / 2 : ℚ)) = 0 := by
    unfold pyInt
    rw [if_neg (by norm_num), hceil]
  have hx : List.map Row.x [(⟨1, -1, 0, 0, ""⟩ : Row), ⟨1, 0, 0, 0, ""⟩] = [(-1 : ℚ), 0] := rfl
  intro h
  have h2 := congrArg (fun l => l.getD 0 99) h
  simp only [convert_to_location, make_location_center, hx, hmean, hpy] at h2
  norm_num [listMean] at h2

/-- C8 amended: for a non-empty cell group without a region column the center
is the component-wise mean truncated toward zero, which equals the floor
whenever the mean is nonnegative, and the location list is one UNDEFINED
entry holding the truncated voxel triples in original row order. -/
theorem claim_c8_amended (cell_id : ℤ) (t : Table)
    (hreg : t.hasRegion = false) (_hne : t.rows ≠ [])
    (hmx : 0 ≤ listMean (t.rows.map Row.x)) (hmy : 0 ≤ listMean (t.rows.map Row.y))
    (hmz : 0 ≤ listMean (t.rows.map Row.z)) :
    (convert_to_location cell_id t).center
      = [⌊listMean (t.rows.map Row.x)⌋, ⌊listMean (t.rows.map Row.y)⌋,
         ⌊listMean (t.rows.map Row.z)⌋]
    ∧ (convert_to_location cell_id t).location
      = [⟨"UNDEFINED", t.rows.map (fun r => [pyInt r.x, pyInt r.y, pyInt r.z])⟩] := by
  constructor
  · simp [convert_to_location, make_location_center, pyInt_eq_floor _ hmx,
      pyInt_eq_floor _ hmy, pyInt_eq_floor _ hmz]
  · simp [convert_to_location, hreg, make_location_voxels]

/-- C8 witness: on the five samples (1,2,6), (2,4,7), (3,6,8), (4,8,9),
(5,10,10) of one cell without regions, the center is (3,6,8) and the single
UNDEFINED bucket holds exactly those voxels in original row order. -/
theorem claim_c8_witness :
    (convert_to_location 1
        ⟨false, [⟨1, 1, 2, 6, ""⟩, ⟨1, 2, 4, 7, ""⟩, ⟨1, 3, 6, 8, ""⟩, ⟨1, 4, 8, 9, ""⟩,
          ⟨1, 5, 10, 10, ""⟩]⟩).center = [3, 6, 8]
    ∧ (convert_to_location 1
        ⟨false, [⟨1, 1, 2, 6, ""⟩, ⟨1, 2, 4, 7, ""⟩, ⟨1, 3, 6, 8, ""⟩, ⟨1, 4, 8, 9, ""⟩,
          ⟨1, 5, 10, 10, ""⟩]⟩).location
      = [⟨"UNDEFINED", [[1, 2, 6], [2, 4, 7], [3, 6, 8], [4, 8, 9], [5, 10, 10]]⟩] := by
  have h := claim_c8_amended 1
    ⟨false, [⟨1, 1, 2, 6, ""⟩, ⟨1, 2, 4, 7, ""⟩, ⟨1, 3, 6, 8, ""⟩, ⟨1, 4, 8, 9, ""⟩,
      ⟨1, 5, 10, 10, ""⟩]⟩ rfl (by simp) (by norm_num [listMean]) (by norm_num [listMean])
    (by norm_num [listMean])
  constructor
  · rw [h.1]; norm_num [listMean]
  · rw [h.2]; norm_num [pyInt]

/-- C10 counterexample: on a cell group whose first-encountered region order
is B then A, the location record enumerates its region entries as A then B,
because pandas groupby sorts the group keys; the first-encountered order of
the claim does not hold. -/
theorem claim_c10_counterexample :
    ((convert_to_location 1 ⟨true, [⟨1, 0, 0, 0, "B"⟩, ⟨1, 1, 1, 1, "A"⟩]⟩).location.map
      (fun e => e.region)) ≠ ["B", "A"] := by decide

/-- C10 amended: for every region-tagged cell group, the per-region entries
of the location record and the per-region sub-records of the cell record both
enumerate the distinct regions of the group in ascending code-point
lexicographic order of the region name (the pandas groupby key order), which
is deterministic on identical input. -/
theorem claim_c10_amended (cell_id : ℤ) (rows : List Row) :
    ((convert_to_location cell_id ⟨true, rows⟩).location.map (fun e => e.region))
      = regionKeys rows
    ∧ (regionKeys rows).Pairwise (fun a b => strLe a b = true)
    ∧ ∀ (reference : Reference) (stats : Stats) (regs : List RegionRecord),
        get_cell_regions rows reference stats = some regs →
          regs.map (fun rr => rr.region) = regionKeys rows := by
  refine ⟨?_, regionKeys_sorted rows, ?_⟩
  · have hcomp : ((fun e : LocationEntry => e.region) ∘ fun region : String =>
        ({ region := region,
           voxels := make_location_voxels
             (rows.filter (fun r => decide (r.region = region))) } : LocationEntry))
        = fun region => region := rfl
    simp [convert_to_location, List.map_map, hcomp]
  · intro reference stats regs h
    exact get_cell_regions_from_map rows reference stats (regionKeys rows) regs h

/-- C10 witness: on a two-region cell appearing as B then A, get_cell_regions
succeeds and its sub-records enumerate the regions as the sorted keys. -/
theorem claim_c10_witness :
    ([({ region := "A", voxels := 1, criticals := [1, 0] } : RegionRecord),
      { region := "B", voxels := 1, criticals := [1, 0] }].map (fun rr => rr.region))
      = regionKeys [⟨1, 0, 0, 0, "B"⟩, ⟨1, 1, 1, 1, "A"⟩] := by
  have hk : regionKeys [(⟨1, 0, 0, 0, "B"⟩ : Row), ⟨1, 1, 1, 1, "A"⟩] = ["A", "B"] := by decide
  have hfA : List.filter (fun r => decide (r.region = "A"))
      [(⟨1, 0, 0, 0, "B"⟩ : Row), ⟨1, 1, 1, 1, "A"⟩] = [⟨1, 1, 1, 1, "A"⟩] := by decide
  have hfB : List.filter (fun r => decide (r.region = "B"))
      [(⟨1, 0, 0, 0, "B"⟩ : Row), ⟨1, 1, 1, 1, "A"⟩] = [⟨1, 0, 0, 0, "B"⟩] := by decide
  have hneA : ("A" : String) = "DEFAULT" ↔ False := by simp
  have hneB : ("B" : String) = "DEFAULT" ↔ False := by simp
  have hcA : get_cell_criticals [(⟨1, 1, 1, 1, "A"⟩ : Row)] (fun _ => none)
      ⟨fun _ => some 0, fun _ => some 1, fun _ => some 0, fun _ => some 1,
       fun _ => some 0, fun _ => some 1, fun _ => some 0, fun _ => some 1⟩ "A"
      = some (1, 0) := by
    norm_num [get_cell_criticals, listMaxD, listMinD, hneA]
  have hcB : get_cell_criticals [(⟨1, 0, 0, 0, "B"⟩ : Row)] (fun _ => none)
      ⟨fun _ => some 0, fun _ => some 1, fun _ => some 0, fun _ => some 1,
       fun _ => some 0, fun _ => some 1, fun _ => some 0, fun _ => some 1⟩ "B"
      = some (1, 0) := by
    norm_num [get_cell_criticals, listMaxD, listMinD, hneB]
  refine (claim_c10_amended 1 _).2.2 (fun _ => none)
    ⟨fun _ => some 0, fun _ => some 1, fun _ => some 0, fun _ => some 1,
     fun _ => some 0, fun _ => some 1, fun _ => some 0, fun _ => some 1⟩ _ ?_
  rw [get_cell_regions, hk]
  simp only [get_cell_regions_from, hfA, hfB, hcA, hcB, Option.some_bind]
  rfl

/-- C9: whenever the conversion core succeeds it emits exactly one cell
record and one location record per distinct cell id of the filtered table,
the j-th record of either list carries the dense renumbered id j + 1 assigned
in groupby iteration order independent of the original sample ids, and the
j-th cell record's voxels count equals the total number of voxel triples
across the j-th location record's location entries. -/
theorem claim_c9 (t : Table) (refFor : ℤ → Reference) (stats : Stats)
    (cells : List CellRecord) (locs : List LocationRecord)
    (h : convert_arcade_records t refFor stats = some (cells, locs)) :
    cells.length = (((filter_valid_samples t).rows.map Row.id).dedup).length
    ∧ locs.length = (((filter_valid_samples t).rows.map Row.id).dedup).length
    ∧ ∀ (j : ℕ) (hc : j < cells.length) (hl : j < locs.length),
        (cells.get ⟨j, hc⟩).id = (j : ℤ) + 1
        ∧ (locs.get ⟨j, hl⟩).id = (j : ℤ) + 1
        ∧ (cells.get ⟨j, hc⟩).voxels
            = ((locs.get ⟨j, hl⟩).location.map (fun e => e.voxels.length)).sum := by
  simp only [convert_arcade_records] at h
  rcases Option.bind_eq_some.mp h with ⟨cs0, hcs, h2⟩
  have h3 := Option.some.inj h2
  have hcells : cells = cs0 := (congrArg Prod.fst h3).symm
  have hlocs : locs = convert_locations_from (filter_valid_samples t).hasRegion
      (filter_valid_samples t).rows
      ((sortedIds (filter_valid_samples t).rows).enum) := (congrArg Prod.snd h3).symm
  subst hcells
  subst hlocs
  have hids : (sortedIds (filter_valid_samples t).rows).length
      = (((filter_valid_samples t).rows.map Row.id).dedup).length :=
    (List.perm_insertionSort _ _).length_eq
  have hlen1 : cells.length = ((sortedIds (filter_valid_samples t).rows).enum).length :=
    convert_cells_from_length _ _ _ _ _ _ hcs
  have hlenc : cells.length = (((filter_valid_samples t).rows.map Row.id).dedup).length := by
    rw [hlen1, List.enum_length, hids]
  have hlenl : (convert_locations_from (filter_valid_samples t).hasRegion
      (filter_valid_samples t).rows ((sortedIds (filter_valid_samples t).rows).enum)).length
      = (((filter_valid_samples t).rows.map Row.id).dedup).length := by
    unfold convert_locations_from
    rw [List.length_map, List.enum_length, hids]
  refine ⟨hlenc, hlenl, ?_⟩
  intro j hc hl
  have hj : j < ((sortedIds (filter_valid_samples t).rows).enum).length := by
    rw [List.enum_length, hids]
    rw [hlenc] at hc
    exact hc
  have hjid : j < (sortedIds (filter_valid_samples t).rows).length := by
    rw [← List.enum_length]
    exact hj
  have hget := convert_cells_from_get _ _ _ _ _ cells hcs j hj hc
  have hpj : ((sortedIds (filter_valid_samples t).rows).enum).get ⟨j, hj⟩
      = (j, (sortedIds (filter_valid_samples t).rows).get ⟨j, hjid⟩) := by
    simp [List.get_eq_getElem, List.getElem_enum]
  rw [hpj] at hget
  have hfields := convert_to_cell_fields _ _ _ _ _ hget
  have hlocget : (convert_locations_from (filter_valid_samples t).hasRegion
        (filter_valid_samples t).rows ((sortedIds (filter_valid_samples t).rows).enum)).get
          ⟨j, hl⟩
      = convert_to_location ((j : ℤ) + 1)
          ⟨(filter_valid_samples t).hasRegion,
           groupRows (filter_valid_samples t).rows
             ((sortedIds (filter_valid_samples t).rows).get ⟨j, hjid⟩)⟩ := by
    simp [convert_locations_from, List.get_eq_getElem, List.getElem_map, List.getElem_enum]
  refine ⟨hfields.1, ?_, ?_⟩
  · rw [hlocget]
    rfl
  · rw [hfields.2, hlocget, convert_to_location_total_voxels]

/-- C9 witness: a one-cell table converts to one cell record and one location
record; the emitted cell list has exactly as many entries as the table has
distinct ids. -/
theorem claim_c9_witness :
    [({
      id := 1, parent := 0, pop := 1, age := 0, divisions := 0, state := "PROLIFERATIVE",
      phase := "PROLIFERATIVE_G1", voxels := 1, criticals := [1, 0], regions := none
    } : CellRecord)].length
      = (((filter_valid_samples ⟨false, [⟨1, 0, 0, 0, ""⟩]⟩).rows.map Row.id).dedup).length := by
  have hfilter : filter_valid_samples ⟨false, [⟨1, 0, 0, 0, ""⟩]⟩
      = ⟨false, [⟨1, 0, 0, 0, ""⟩]⟩ := rfl
  have hids : sortedIds [(⟨1, 0, 0, 0, ""⟩ : Row)] = [1] := by decide
  have hgrp : groupRows [(⟨1, 0, 0, 0, ""⟩ : Row)] 1 = [⟨1, 0, 0, 0, ""⟩] := by decide
  have hcrit : get_cell_criticals [(⟨1, 0, 0, 0, ""⟩ : Row)] (fun _ => none)
      ⟨fun _ => some 0, fun _ => some 1, fun _ => some 0, fun _ => some 1,
       fun _ => some 0, fun _ => some 1, fun _ => some 0, fun _ => some 1⟩ "DEFAULT"
      = some (1, 0) := by
    norm_num [get_cell_criticals, listMaxD, listMinD]
  have hphase : get_cell_phase 1 1 = ("PROLIFERATIVE", "PROLIFERATIVE_G1") := by
    norm_num [get_cell_phase, fractions, states, phases, List.findIdx?_cons, List.findIdx?_nil]
    decide
  have hcell : convert_to_cell 1 ⟨false, [⟨1, 0, 0, 0, ""⟩]⟩ (fun _ => none)
      ⟨fun _ => some 0, fun _ => some 1, fun _ => some 0, fun _ => some 1,
       fun _ => some 0, fun _ => some 1, fun _ => some 0, fun _ => some 1⟩
      = some {
          id := 1, parent := 0, pop := 1, age := 0, divisions := 0,
          state := "PROLIFERATIVE", phase := "PROLIFERATIVE_G1", voxels := 1,
          criticals := [1, 0], regions := none
        } := by
    simp [convert_to_cell, hcrit, hphase]
  have hrec : convert_arcade_records ⟨false, [⟨1, 0, 0, 0, ""⟩]⟩ (fun _ => fun _ => none)
      ⟨fun _ => some 0, fun _ => some 1, fun _ => some 0, fun _ => some 1,
       fun _ => some 0, fun _ => some 1, fun _ => some 0, fun _ => some 1⟩
      = some ([{
            id := 1, parent := 0, pop := 1, age := 0, divisions := 0,
            state := "PROLIFERATIVE", phase := "PROLIFERATIVE_G1", voxels := 1,
            criticals := [1, 0], regions := none
          }],
          [{ id := 1, center := [0, 0, 0], location := [⟨"UNDEFINED", [[0, 0, 0]]⟩] }]) := by
    simp only [convert_arcade_records, hfilter, hids]
    simp only [List.enum]
    simp only [convert_cells_from, hgrp, hcell, Option.some_bind,
      convert_locations_from, List.map]
    norm_num [convert_to_location, make_location_center, make_location_voxels, listMean, pyInt]
    rw [hcell]
    rfl
  exact (claim_c9 _ _ _ _ _ hrec).1

lemma transform_coord_eq_floor (step offset v : ℚ) (hs : 0 < step) (hv : 0 ≤ v)
    (hb : v / step < 2 ^ 31) :
    transform_coord step offset v = (⌊v / step⌋ : ℚ) + offset := by
  unfold transform_coord
  have h0 : 0 ≤ v / step := div_nonneg hv hs.le
  have hpy : pyInt (v / step) = ⌊v / step⌋ := pyInt_eq_floor _ h0
  have hlt : ⌊v / step⌋ < 2 ^ 31 := Int.floor_lt.mpr (by exact_mod_cast hb)
  have hge : (-2 ^ 31 : ℤ) ≤ ⌊v / step⌋ :=
    le_trans (by norm_num) (Int.floor_nonneg.mpr h0)
  rw [int32cast_eq_pyInt _ (hpy ▸ hge) (hpy ▸ hlt), hpy]

/-- C3 amended: on one axis (the three axes are computed independently and
identically), when every coordinate is nonnegative, small enough that the
int32 cast does not wrap, and the axis minimum is an integer multiple of the
step, every transformed coordinate equals floor(raw / step) + offset and the
minimum transformed coordinate equals margin + 1. -/
theorem claim_c3_amended (vals : List ℚ) (margin : ℤ) (hne : vals ≠ [])
    (hnn : ∀ v ∈ vals, 0 ≤ v)
    (hbound : ∀ v ∈ vals, v / get_step_size vals < 2 ^ 31)
    (halign : ∃ k : ℤ, listMinD vals = (k : ℚ) * get_step_size vals) :
    (∀ v ∈ vals,
      transform_coord (get_step_size vals) (axis_offset vals margin) v
        = (⌊v / get_step_size vals⌋ : ℚ) + axis_offset vals margin)
    ∧ listMinD (vals.map (transform_coord (get_step_size vals) (axis_offset vals margin)))
        = (margin : ℚ) + 1 := by
  obtain ⟨k, hk⟩ := halign
  have hs := get_step_size_pos vals
  have hfloor : ∀ v ∈ vals,
      transform_coord (get_step_size vals) (axis_offset vals margin) v
        = (⌊v / get_step_size vals⌋ : ℚ) + axis_offset vals margin :=
    fun v hv => transform_coord_eq_floor _ _ _ hs (hnn v hv) (hbound v hv)
  refine ⟨hfloor, ?_⟩
  have hm0mem : listMinD vals ∈ vals := listMinD_mem vals hne
  have hm0div : listMinD vals / get_step_size vals = (k : ℚ) := by
    rw [hk]
    field_simp
  have hoff : axis_offset vals margin = -(k : ℚ) + margin + 1 := by
    unfold axis_offset
    rw [hm0div]
  have hTm0 : transform_coord (get_step_size vals) (axis_offset vals margin) (listMinD vals)
      = (margin : ℚ) + 1 := by
    rw [hfloor _ hm0mem, hm0div, Int.floor_intCast, hoff]
    ring
  have hlb : ∀ w ∈ vals.map (transform_coord (get_step_size vals) (axis_offset vals margin)),
      (margin : ℚ) + 1 ≤ w := by
    intro w hw
    rcases List.mem_map.mp hw with ⟨v, hv, rfl⟩
    rw [hfloor v hv, hoff]
    have h1 : listMinD vals ≤ v := listMinD_le vals v hv
    have h2 : (k : ℚ) ≤ (⌊v / get_step_size vals⌋ : ℚ) := by
      have h3 : ⌊listMinD vals / get_step_size vals⌋ ≤ ⌊v / get_step_size vals⌋ :=
        Int.floor_le_floor ((div_le_div_iff_of_pos_right hs).mpr h1)
      rw [hm0div, Int.floor_intCast] at h3
      exact_mod_cast h3
    linarith
  exact listMinD_eq _ _ (List.mem_map.mpr ⟨listMinD vals, hm0mem, hTm0⟩) hlb

/-- C3 counterexample: on the two-row table with coordinates 1 and 3 on every
axis and margins (0,0,0), the step is 2 and the axis minimum 1 is not a
multiple of it, so the minimum transformed x coordinate is 1/2, not
margin + 1 = 1 as the claim requires (the transformed column is not even
integral). -/
theorem claim_c3_counterexample :
    listMinD ((transform_sample_voxels [⟨1, 1, 1, 1, ""⟩, ⟨1, 3, 3, 3, ""⟩]
        (calculate_sample_transform [⟨1, 1, 1, 1, ""⟩, ⟨1, 3, 3, 3, ""⟩] (0, 0, 0)).1
        (calculate_sample_transform [⟨1, 1, 1, 1, ""⟩, ⟨1, 3, 3, 3, ""⟩] (0, 0, 0)).2.1).map
      Row.x) = 1 / 2
    ∧ (1 / 2 : ℚ) ≠ ((0 : ℤ) : ℚ) + 1 := by
  have hfilter : ([(1 : ℚ), 3].flatMap (fun a => [(1 : ℚ), 3].map (fun b => b - a))).filter
      (fun d => decide (0 < d)) = [2] := by
    norm_num [List.flatMap_cons, List.flatMap_nil, List.filter_cons, List.filter_nil]
  have hstep : get_step_size [(1 : ℚ), 3] = 2 := by
    unfold get_step_size
    rw [hfilter]
    rfl
  have hoff : axis_offset [(1 : ℚ), 3] 0 = 1 / 2 := by
    unfold axis_offset
    rw [hstep]
    show -(List.foldl min 1 [3] / 2) + 0 + 1 = 1 / 2
    rw [List.foldl_cons, List.foldl_nil, min_eq_left (by norm_num : (1 : ℚ) ≤ 3)]
    norm_num
  have hint1 : int32cast ((1 : ℚ) / 2) = 0 := by
    have hpy : pyInt ((1 : ℚ) / 2) = 0 := by
      unfold pyInt
      rw [if_pos (by norm_num : (0 : ℚ) ≤ 1 / 2)]
      norm_num
    unfold int32cast
    rw [hpy]
    decide
  have hint3 : int32cast ((3 : ℚ) / 2) = 1 := by
    have hpy : pyInt ((3 : ℚ) / 2) = 1 := by
      unfold pyInt
      rw [if_pos (by norm_num : (0 : ℚ) ≤ 3 / 2)]
      norm_num
    unfold int32cast
    rw [hpy]
    decide
  have h1 : transform_coord 2 (1 / 2) 1 = 1 / 2 := by
    unfold transform_coord
    rw [hint1]
    norm_num
  have h3 : transform_coord 2 (1 / 2) 3 = 3 / 2 := by
    unfold transform_coord
    rw [hint3]
    norm_num
  refine ⟨?_, by norm_num⟩
  show listMinD ([(1 : ℚ), 3].map
      (transform_coord (get_step_size [(1 : ℚ), 3]) (axis_offset [(1 : ℚ), 3] 0))) = 1 / 2
  rw [hstep, hoff]
  show listMinD [transform_coord 2 (1 / 2) 1, transform_coord 2 (1 / 2) 3] = 1 / 2
  rw [h1, h3]
  show List.foldl min (1 / 2) [3 / 2] = 1 / 2
  rw [List.foldl_cons, List.foldl_nil, min_eq_left (by norm_num : (1 / 2 : ℚ) ≤ 3 / 2)]

/-- C3 witness: the axis with coordinates 0 and 2 and margin 3 satisfies the
alignment hypotheses, and its minimum transformed coordinate is 3 + 1. -/
theorem claim_c3_witness :
    listMinD ([(0 : ℚ), 2].map
        (transform_coord (get_step_size [(0 : ℚ), 2]) (axis_offset [(0 : ℚ), 2] 3)))
      = ((3 : ℤ) : ℚ) + 1 := by
  have hfilter : ([(0 : ℚ), 2].flatMap (fun a => [(0 : ℚ), 2].map (fun b => b - a))).filter
      (fun d => decide (0 < d)) = [2] := by
    norm_num [List.flatMap_cons, List.flatMap_nil, List.filter_cons, List.filter_nil]
  have hstep : get_step_size [(0 : ℚ), 2] = 2 := by
    unfold get_step_size
    rw [hfilter]
    rfl
  refine (claim_c3_amended [(0 : ℚ), 2] 3 (by simp) ?_ ?_ ?_).2
  · intro v hv
    fin_cases hv <;> norm_num
  · intro v hv
    fin_cases hv <;> rw [hstep] <;> norm_num
  · refine ⟨0, ?_⟩
    show List.foldl min 0 [2] = (0 : ℚ) * get_step_size [(0 : ℚ), 2]
    rw [List.foldl_cons, List.foldl_nil, min_eq_left (by norm_num : (0 : ℚ) ≤ 2)]
    norm_num
